import Mathlib

/-!
Verification development for the filter/selection coordination core of the
dc.js charting repository.  The shallow embedding below translates, into Lean,
the data structures and operations that the repository uses to register
filters, combine them, and notify peer charts to redraw: filter value objects,
the per-chart filter storage, the coalescing event bus, the group redraw
dispatcher, and the chart-level code of the scatter plot, pie chart and bubble
mixin that is present under src.  JavaScript numbers are modelled as rationals
(comparisons on finite doubles agree with the rational order) and NaN, where
it matters, as the value none of an Option type.
-/

set_option autoImplicit false

/-! ## Filter value objects -/

/-- Modelled from the spec: the filter value objects live in src/core/filters
which is not included under src (only callers such as the scatter plot in
src/unnamed/part_001 are).  Section 4.1 of the spec: the range filter wraps
lo and hi and matches iff lo <= candidate < hi (half-open). -/
structure RangedFilter where
  lo : ℚ
  hi : ℚ
deriving DecidableEq

/-- Modelled from the spec: matches of the range filter, half-open interval,
lo inclusive and hi exclusive. -/
def RangedFilter.isFiltered (f : RangedFilter) (k : ℚ) : Bool :=
  decide (f.lo ≤ k) && decide (k < f.hi)

/-- Modelled from the spec: the ranged-2D filter of src/core/filters (not
under src) wraps two corner points [[x0,y0],[x1,y1]] and matches a point iff
both coordinates fall in their half-open ranges. -/
structure RangedTwoDimensionalFilter where
  x0 : ℚ
  y0 : ℚ
  x1 : ℚ
  y1 : ℚ
deriving DecidableEq

/-- Modelled from the spec: isFiltered of the ranged-2D filter, each
coordinate tested against its half-open range. -/
def RangedTwoDimensionalFilter.isFiltered (f : RangedTwoDimensionalFilter)
    (p : ℚ × ℚ) : Bool :=
  decide (f.x0 ≤ p.1) && decide (p.1 < f.x1) &&
    (decide (f.y0 ≤ p.2) && decide (p.2 < f.y1))

/-- A brush selection: two corner points [[x0,y0],[x1,y1]]. -/
abbrev Sel : Type := (ℚ × ℚ) × (ℚ × ℚ)

/-- Modelled from the spec: the RangedTwoDimensionalFilter constructor of
src/core/filters (not under src) returns null when given null and otherwise
wraps the two corner points into a ranged-2D filter value. -/
def mkRangedTwoDimensionalFilter (sel : Option Sel) :
    Option RangedTwoDimensionalFilter :=
  match sel with
  | none => none
  | some ((a, b), (c, d)) => some ⟨a, b, c, d⟩

/-- The variants of filter values that the base filter storage can hold,
following section 3 of the spec (exact, range, ranged-2D). -/
inductive DCFilterVal where
  | exact (k : ℚ)
  | ranged (f : RangedFilter)
  | ranged2D (f : RangedTwoDimensionalFilter)
deriving DecidableEq

/-! ## Per-chart filter storage -/

section FilterStorage

variable {α : Type} [DecidableEq α]

/-- Modelled from the spec: the remove operation of the per-chart filter
storage (BaseMixin in src/base/base-mixin, not included under src); it removes
the first stored filter structurally equal to the given one. -/
def removeFilter : List α → α → List α
  | [], _ => []
  | f :: rest, v => if f = v then rest else f :: removeFilter rest v

/-- Modelled from the spec: the filter operation of the per-chart filter
storage (BaseMixin in src/base/base-mixin, not included under src).  Section
4.2: filter(value) with null clears all filters; otherwise it toggles the
wrapped value: if an equal filter is already present it is removed, else the
filter is appended.  Structural equality, not identity. -/
def chartFilter (fs : List α) (v : Option α) : List α :=
  match v with
  | none => []
  | some w => if w ∈ fs then removeFilter fs w else fs ++ [w]

/-- Modelled from the spec: hasFilter of the per-chart filter storage
(BaseMixin, not included under src).  With no argument (none) it is true iff
the filter list is non-empty; with an argument it is true iff some stored
filter is structurally equal to the wrapped value. -/
def chartHasFilter (fs : List α) (v : Option α) : Bool :=
  match v with
  | none => decide (fs ≠ [])
  | some w => decide (w ∈ fs)

/-- Modelled from the spec: section 6, the external dimension filter setter;
when the filter list is empty the predicate is removed (none), otherwise a
predicate accepting the keys matched by some stored filter is installed. -/
def dimensionPredicate (fs : List α) : Option (α → Bool) :=
  if fs.isEmpty then none else some (fun k => fs.contains k)

/-- Whether a record passes the dimension after the filters fs were applied:
with no installed predicate every record passes. -/
def recordPasses (fs : List α) (k : α) : Bool :=
  match dimensionPredicate fs with
  | none => true
  | some p => p k

theorem removeFilter_of_not_mem {L : List α} {v : α} (h : v ∉ L) :
    removeFilter L v = L := by
  induction L with
  | nil => rfl
  | cons f rest ih =>
      simp only [List.mem_cons, not_or] at h
      simp [removeFilter, Ne.symm h.1, ih h.2]

theorem removeFilter_append_singleton {L : List α} {v : α} (h : v ∉ L) :
    removeFilter (L ++ [v]) v = L := by
  induction L with
  | nil => simp [removeFilter]
  | cons f rest ih =>
      simp only [List.mem_cons, not_or] at h
      simp [removeFilter, Ne.symm h.1, ih h.2]

theorem mem_removeFilter_of_nodup {L : List α} (hnd : L.Nodup) (v w : α) :
    w ∈ removeFilter L v ↔ w ∈ L ∧ w ≠ v := by
  induction L with
  | nil => simp [removeFilter]
  | cons f rest ih =>
      rcases List.nodup_cons.mp hnd with ⟨hf, hrest⟩
      by_cases hfv : f = v
      · subst hfv
        simp only [removeFilter, if_pos rfl]
        constructor
        · intro hw
          exact ⟨List.mem_cons_of_mem _ hw, fun hwf => hf (hwf ▸ hw)⟩
        · rintro ⟨hw, hne⟩
          rcases List.mem_cons.mp hw with h | h
          · exact absurd h hne
          · exact h
      · simp only [removeFilter, if_neg hfv, List.mem_cons, ih hrest]
        constructor
        · rintro (rfl | ⟨hw, hne⟩)
          · exact ⟨Or.inl rfl, hfv⟩
          · exact ⟨Or.inr hw, hne⟩
        · rintro ⟨rfl | hw, hne⟩
          · exact Or.inl rfl
          · exact Or.inr ⟨hw, hne⟩

end FilterStorage

/-! ## Coalescing event bus -/

/-- A notify/trigger call arriving on the event bus: its arrival time, the
scope (chart group) it targets, an identifier of the scheduled action and the
debounce delay.  Times are modelled as natural numbers. -/
structure Ev (σ : Type) where
  time : ℕ
  scope : σ
  act : ℕ
  delay : ℕ
deriving DecidableEq

section EventBus

variable {σ : Type} [DecidableEq σ]

/-- Modelled from the spec: the coalescing event bus of src/core/events (not
included under src; only its callers - the scatter plot brushing handler in
src/unnamed/part_001 and the bubble mixin onClick - are).  Section 4.4 of the
spec: notify schedules the action to run after the delay; a later notify for
the same scope arriving before the timer fires resets the timer and replaces
the pending action; different scopes are independent.  The state is the list
of pending entries (scope, action id, fire time).  Processing an event first
fires every pending entry whose fire time has been reached, then supersedes
any remaining same-scope entry, and schedules the new action.  Returns the
actions executed during the trace and the entries still pending. -/
def busProc (pend : List (σ × ℕ × ℕ)) : List (Ev σ) → List ℕ × List (σ × ℕ × ℕ)
  | [] => ([], pend)
  | e :: rest =>
      let fired := (pend.filter (fun p => decide (p.2.2 ≤ e.time))).map
        (fun p => p.2.1)
      let keep := (pend.filter (fun p => !decide (p.2.2 ≤ e.time))).filter
        (fun p => !decide (p.1 = e.scope))
      let next := busProc (keep ++ [(e.scope, e.act, e.time + e.delay)]) rest
      (fired ++ next.1, next.2)

/-- All actions that eventually execute for a trace of notify calls: those
fired while the trace was processed, followed by the still-pending entries,
which all fire once the trace is over and their timers elapse (quiescence). -/
def busRun (evs : List (Ev σ)) : List ℕ :=
  (busProc [] evs).1 ++ ((busProc [] evs).2.map (fun p => p.2.1))

/-- A burst: consecutive notify calls are in chronological order and each one
arrives strictly before the timer of the previous one fires. -/
def withinWindow (a b : Ev σ) : Prop :=
  a.time ≤ b.time ∧ b.time < a.time + a.delay

/-- The last element of a non-empty list given as head and tail. -/
def lastEv {τ : Type} (e : τ) : List τ → τ
  | [] => e
  | e2 :: rest => lastEv e2 rest

theorem lastEv_eq_getLast {τ : Type} :
    ∀ (rest : List τ) (e : τ), lastEv e rest = (e :: rest).getLast (by simp)
  | [], _ => rfl
  | e2 :: rest, e => by
      rw [List.getLast_cons]
      exact lastEv_eq_getLast rest e2

theorem busProc_burst (s : σ) :
    ∀ (rest : List (Ev σ)) (e : Ev σ) (a ft : ℕ),
      e.scope = s → (∀ x ∈ rest, x.scope = s) →
      e.time < ft →
      List.Chain' withinWindow (e :: rest) →
      busProc [(s, a, ft)] (e :: rest) =
        ([], [(s, (lastEv e rest).act,
          (lastEv e rest).time + (lastEv e rest).delay)]) := by
  intro rest
  induction rest with
  | nil =>
      intro e a ft hes _ hlt _
      simp [busProc, lastEv, Nat.not_le.mpr hlt, hes]
  | cons e2 rest2 ih =>
      intro e a ft hes hrest hlt hchain
      have hft : ¬ (ft ≤ e.time) := Nat.not_le.mpr hlt
      have he2 : e2.scope = s := hrest e2 (List.mem_cons_self _ _)
      have hwin : withinWindow e e2 := (List.chain'_cons.mp hchain).1
      have hchain2 : List.Chain' withinWindow (e2 :: rest2) :=
        (List.chain'_cons.mp hchain).2
      have step := ih e2 e.act (e.time + e.delay) he2
        (fun x hx => hrest x (List.mem_cons_of_mem _ hx)) hwin.2 hchain2
      have hstep : busProc [(s, a, ft)] (e :: e2 :: rest2) =
          busProc [(s, e.act, e.time + e.delay)] (e2 :: rest2) := by
        simp only [busProc]
        simp [hft, hes]
      rw [hstep]
      simpa [lastEv] using step

end EventBus

/-! ## Group redraw dispatcher -/

section Dispatcher

variable {ε β : Type}

/-- The outcome of the redraw contract of one chart: ok with its result, or
error when its redraw throws. -/
def errOf : Except ε β → Option ε
  | .ok _ => none
  | .error e => some e

/-- Modelled from the spec: the group traversal of redrawGroup/renderGroup
(chart registry and core dispatcher, not included under src).  Sections 4.5
and 7 of the spec: every chart in the group is attempted in registration
order; a failure in one chart does not prevent the remaining charts from
redrawing; the errors are collected and reported to the caller only after all
charts were attempted, none swallowed. -/
def redrawGroupRun (charts : List (Except ε β)) : List β × List ε :=
  match charts with
  | [] => ([], [])
  | c :: rest =>
      let r := redrawGroupRun rest
      match c with
      | .ok b => (b :: r.1, r.2)
      | .error e => (r.1, e :: r.2)

end Dispatcher

/-! ## ScatterPlot (src/unnamed/part_001) -/

/-- ScatterPlot.filter (src/unnamed/part_001 lines 89-95): a non-null value
is wrapped in a RangedTwoDimensionalFilter before delegation to the base
filter storage; null stays null (the wrapping constructor returns null on
null).  The delegated value as it reaches the storage. -/
def scatterFilterArg (sel : Option Sel) : Option DCFilterVal :=
  (mkRangedTwoDimensionalFilter sel).map DCFilterVal.ranged2D

/-- ScatterPlot.brushIsEmpty (src/unnamed/part_001 lines 413-415): a brush
selection is empty iff it is absent or x0 >= x1 or y0 >= y1. -/
def brushIsEmpty (sel : Option Sel) : Bool :=
  match sel with
  | none => true
  | some ((x0, y0), (x1, y1)) => decide (x0 ≥ x1) || decide (y0 ≥ y1)

/-- ScatterPlot.extendBrush (src/unnamed/part_001 lines 405-411): when a
round function is configured, both coordinates of both corner points are
mapped through it; otherwise the selection is returned unchanged. -/
def extendBrush (round : Option (ℚ → ℚ)) (sel : Sel) : Sel :=
  match round with
  | none => sel
  | some r => ((r sel.1.1, r sel.1.2), (r sel.2.1, r sel.2.2))

/-- ScatterPlot._brushing (src/unnamed/part_001 lines 417-457), the dataflow
from the pixel brush selection to the filter handed to replaceFilter inside
the triggered action: emptiness of the pixel selection is tested first; a
non-null selection is mapped through the inverses of the x and y scales
(invertX, invertY), then extended (rounded); emptiness is rechecked as the
conjunction of the first test and the test on the transformed selection; the
resulting filter is null when that conjunction holds and otherwise the
ranged-2D wrap of the transformed selection. -/
def scatterBrushingFilter (invertX invertY : ℚ → ℚ) (round : Option (ℚ → ℚ))
    (sel : Option Sel) : Option RangedTwoDimensionalFilter :=
  match sel with
  | none => none
  | some c =>
      let inverted : Sel :=
        ((invertX c.1.1, invertY c.1.2), (invertX c.2.1, invertY c.2.2))
      let extended := extendBrush round inverted
      let isEmpty := brushIsEmpty (some c) && brushIsEmpty (some extended)
      if isEmpty then none else mkRangedTwoDimensionalFilter (some extended)

/-- The configuration fields of a ScatterPlot instance, with the constructor
defaults of src/unnamed/part_001 lines 52-59. -/
structure ScatterPlotConf where
  highlightedSize : ℚ
  symbolSize : ℚ
  excludedSize : ℚ
  excludedOpacity : ℚ
  emptySize : ℚ
  emptyOpacity : ℚ
  nonemptyOpacity : ℚ
deriving DecidableEq

/-- Constructor defaults of the scatter plot. -/
def ScatterPlotConf.init : ScatterPlotConf :=
  { highlightedSize := 7, symbolSize := 5, excludedSize := 3
    excludedOpacity := 1, emptySize := 0, emptyOpacity := 0
    nonemptyOpacity := 1 }

/-- symbolSize setter branch (src/unnamed/part_001 lines 229-235). -/
def setSymbolSize (c : ScatterPlotConf) (v : ℚ) : ScatterPlotConf :=
  { c with symbolSize := v }

/-- symbolSize getter branch. -/
def getSymbolSize (c : ScatterPlotConf) : ℚ :=
  c.symbolSize

/-- excludedOpacity setter branch (src/unnamed/part_001 lines 297-303). -/
def setExcludedOpacity (c : ScatterPlotConf) (v : ℚ) : ScatterPlotConf :=
  { c with excludedOpacity := v }

/-- excludedOpacity getter branch. -/
def getExcludedOpacity (c : ScatterPlotConf) : ℚ :=
  c.excludedOpacity

/-- emptyOpacity setter branch (src/unnamed/part_001 lines 349-355). -/
def setEmptyOpacity (c : ScatterPlotConf) (v : ℚ) : ScatterPlotConf :=
  { c with emptyOpacity := v }

/-- emptyOpacity getter branch. -/
def getEmptyOpacity (c : ScatterPlotConf) : ℚ :=
  c.emptyOpacity

/-- nonemptyOpacity setter branch (src/unnamed/part_001 lines 366-372):
stores into the nonemptyOpacity field. -/
def setNonemptyOpacity (c : ScatterPlotConf) (v : ℚ) : ScatterPlotConf :=
  { c with nonemptyOpacity := v }

/-- nonemptyOpacity getter branch, exactly as written at src/unnamed/part_001
line 368: it returns the emptyOpacity field, not the nonemptyOpacity
field. -/
def getNonemptyOpacity (c : ScatterPlotConf) : ℚ :=
  c.emptyOpacity

/-! ## PieChart (src/src/charts/pie-chart.js) -/

/-- The configuration fields of a PieChart relevant to the accessors under
study, with the constructor defaults of src/src/charts/pie-chart.js lines
59-67; cx and cy start undefined (none). -/
structure PieChartConf where
  width : ℚ
  height : ℚ
  cx : Option ℚ
  cy : Option ℚ
  innerRadius : ℚ
deriving DecidableEq

/-- A pie chart configuration with given width and height and the other
constructor defaults. -/
def PieChartConf.init (w h : ℚ) : PieChartConf :=
  { width := w, height := h, cx := none, cy := none, innerRadius := 0 }

/-- cx setter branch (src/src/charts/pie-chart.js lines 407-413). -/
def setCx (c : PieChartConf) (v : ℚ) : PieChartConf :=
  { c with cx := some v }

/-- cx getter branch: the source returns (this._cx || this.width() / 2), so
an unset cx, and also a stored 0 (falsy in JavaScript), yield width / 2. -/
def getCx (c : PieChartConf) : ℚ :=
  match c.cx with
  | none => c.width / 2
  | some v => if v = 0 then c.width / 2 else v

/-- innerRadius setter branch (src/src/charts/pie-chart.js lines 374-380). -/
def setInnerRadius (c : PieChartConf) (v : ℚ) : PieChartConf :=
  { c with innerRadius := v }

/-- innerRadius getter branch. -/
def getInnerRadius (c : PieChartConf) : ℚ :=
  c.innerRadius

/-! ## BubbleMixin (src/src/base/bubble-mixin.ts) -/

/-- The elasticRadius flag of the bubble mixin, default false
(src/src/base/bubble-mixin.ts line 40). -/
structure BubbleConf where
  elasticRadius : Bool
deriving DecidableEq

/-- Constructor default of the bubble mixin flag. -/
def BubbleConf.init : BubbleConf :=
  { elasticRadius := false }

/-- elasticRadius setter branch (src/src/base/bubble-mixin.ts lines
93-101). -/
def setElasticRadius (c : BubbleConf) (v : Bool) : BubbleConf :=
  { c with elasticRadius := v }

/-- elasticRadius getter branch. -/
def getElasticRadius (c : BubbleConf) : Bool :=
  c.elasticRadius

section BubbleR

variable {δ : Type}

/-- BubbleMixin.bubbleR (src/src/base/bubble-mixin.ts lines 141-148): the
radius value accessor is applied to the datum, the radius scale to that
value; when the scaled result is NaN (modelled as none) or the value is not
positive, 0 is returned, else the scaled result.  The return type Option
mirrors a JavaScript number that could be NaN. -/
def bubbleR (radiusValueAccessor : δ → ℚ) (rScale : ℚ → Option ℚ)
    (d : δ) : Option ℚ :=
  let value := radiusValueAccessor d
  let r := rScale value
  if r.isNone || decide (value ≤ 0) then some 0 else r

end BubbleR

/-! ## Claim theorems -/

/-- Claim C1, as amended: two successive filter(v) calls restore the filter
list up to order.  When v is not already present - in particular on a fresh
empty FilterSet - the list is restored exactly; in every case (under the
documented no-duplicates invariant) membership, and hence every hasFilter
answer, is restored, so a second click on the same element leaves
hasFilter(key) false.  The original claim asks for exact list restoration for
every starting list, which fails when v sits before the end of the list: the
toggle removes it and re-appends it at the end. -/
theorem toggle_twice_restores_up_to_order {α : Type} [DecidableEq α]
    (L : List α) (v : α) (hnd : L.Nodup) :
    (v ∉ L → chartFilter (chartFilter L (some v)) (some v) = L) ∧
    (∀ w, w ∈ chartFilter (chartFilter L (some v)) (some v) ↔ w ∈ L) ∧
    chartFilter (chartFilter ([] : List α) (some v)) (some v) = [] ∧
    chartHasFilter (chartFilter (chartFilter L (some v)) (some v)) (some v) =
      chartHasFilter L (some v) := by
  have hfresh : chartFilter (chartFilter ([] : List α) (some v)) (some v) = [] := by
    simp [chartFilter, removeFilter]
  by_cases hv : v ∈ L
  · have h1 : chartFilter L (some v) = removeFilter L v := by
      simp [chartFilter, hv]
    have hvnot : v ∉ removeFilter L v := by
      intro hmem
      exact ((mem_removeFilter_of_nodup hnd v v).mp hmem).2 rfl
    have h2 : chartFilter (removeFilter L v) (some v) = removeFilter L v ++ [v] := by
      simp [chartFilter, hvnot]
    refine ⟨fun h => absurd hv h, ?_, hfresh, ?_⟩
    · intro w
      rw [h1, h2]
      simp only [List.mem_append, List.mem_singleton,
        mem_removeFilter_of_nodup hnd]
      constructor
      · rintro (⟨hw, _⟩ | rfl)
        · exact hw
        · exact hv
      · intro hw
        by_cases hwv : w = v
        · exact Or.inr hwv
        · exact Or.inl ⟨hw, hwv⟩
    · rw [h1, h2]
      simp [chartHasFilter, hv]
  · have h1 : chartFilter L (some v) = L ++ [v] := by
      simp [chartFilter, hv]
    have h2 : chartFilter (L ++ [v]) (some v) = L := by
      have hmem : v ∈ L ++ [v] := by simp
      simp [chartFilter, hmem, removeFilter_append_singleton hv]
    exact ⟨fun _ => by rw [h1, h2], fun w => by rw [h1, h2], hfresh,
      by rw [h1, h2]⟩

/-- Claim C1, witness: at a concrete fresh and non-member instance the double
toggle restores the list exactly. -/
theorem toggle_twice_restores_witness :
    chartFilter (chartFilter [1, 2] (some (5 : ℕ))) (some 5) = [1, 2] ∧
    chartFilter (chartFilter ([] : List ℕ) (some 5)) (some 5) = [] := by
  have h := toggle_twice_restores_up_to_order [1, 2] (5 : ℕ) (by decide)
  exact ⟨h.1 (by decide), h.2.2.1⟩

/-- Claim C1, counterexample to the claim as stated: with the filter list
[0, 1] and v = 0, two successive filter(v) calls yield [1, 0], not the
original list. -/
theorem toggle_twice_not_exact_list :
    chartFilter (chartFilter [0, 1] (some (0 : ℕ))) (some 0) ≠ [0, 1] := by
  decide

/-- Claim C4: filter(null) clears the whole filter list regardless of how
many filters are active; afterwards hasFilter with no argument is false, the
dimension predicate is removed, and every record passes. -/
theorem filter_null_total_reset {α : Type} [DecidableEq α] (fs : List α) :
    chartFilter fs none = [] ∧
    chartHasFilter (chartFilter fs none) none = false ∧
    dimensionPredicate (chartFilter fs none) = none ∧
    ∀ k, recordPasses (chartFilter fs none) k = true := by
  refine ⟨rfl, ?_, ?_, ?_⟩ <;>
    simp [chartFilter, chartHasFilter, dimensionPredicate, recordPasses]

/-- Claim C5: range and ranged-2D filters use half-open interval semantics,
lo inclusive and hi exclusive, characterized in general and evaluated at the
boundary examples of the spec, including the rational key 4.999. -/
theorem half_open_interval_semantics :
    (∀ (f : RangedFilter) (k : ℚ),
        f.isFiltered k = true ↔ f.lo ≤ k ∧ k < f.hi) ∧
    (∀ (f : RangedTwoDimensionalFilter) (p : ℚ × ℚ),
        f.isFiltered p = true ↔
          (f.x0 ≤ p.1 ∧ p.1 < f.x1) ∧ (f.y0 ≤ p.2 ∧ p.2 < f.y1)) ∧
    (RangedFilter.mk 2 5).isFiltered 2 = true ∧
    (RangedFilter.mk 2 5).isFiltered (4999/1000) = true ∧
    (RangedFilter.mk 2 5).isFiltered 5 = false ∧
    (RangedTwoDimensionalFilter.mk 1 1 3 3).isFiltered (1, 1) = true ∧
    (RangedTwoDimensionalFilter.mk 1 1 3 3).isFiltered (2, 2) = true ∧
    (RangedTwoDimensionalFilter.mk 1 1 3 3).isFiltered (3, 3) = false := by
  refine ⟨fun f k => ?_, fun f p => ?_, ?_, ?_, ?_, ?_, ?_, ?_⟩
  · simp [RangedFilter.isFiltered]
  · simp [RangedTwoDimensionalFilter.isFiltered]
  all_goals norm_num [RangedFilter.isFiltered,
    RangedTwoDimensionalFilter.isFiltered]

/-- Claim C6: hasFilter with no argument is true iff the filter list is
non-empty; with an argument it is true iff some stored filter is structurally
equal to the wrapped value; after filtering one key K on a fresh chart,
hasFilter(K) holds and hasFilter of any other key is false. -/
theorem hasFilter_spec {α : Type} [DecidableEq α] :
    (∀ fs : List α, chartHasFilter fs none = true ↔ fs ≠ []) ∧
    (∀ (fs : List α) (v : α), chartHasFilter fs (some v) = true ↔ v ∈ fs) ∧
    (∀ K K2 : α, K2 ≠ K →
      chartHasFilter (chartFilter [] (some K)) (some K) = true ∧
      chartHasFilter (chartFilter [] (some K)) (some K2) = false) := by
  refine ⟨fun fs => by simp [chartHasFilter],
    fun fs v => by simp [chartHasFilter], ?_⟩
  intro K K2 hne
  constructor <;> simp [chartFilter, chartHasFilter, hne]

/-- Claim C6, witness: on a fresh chart filtered with key 0, hasFilter 0 is
true and hasFilter 1 is false. -/
theorem hasFilter_spec_witness :
    chartHasFilter (chartFilter ([] : List ℕ) (some 0)) (some 0) = true ∧
    chartHasFilter (chartFilter ([] : List ℕ) (some 0)) (some 1) = false :=
  (hasFilter_spec (α := ℕ)).2.2 0 1 (by decide)

/-- Claim C2: for a burst of k >= 1 notify calls on the same scope, each
arriving before the timer of the previous one fires, exactly one action
eventually executes and it is the last one scheduled; the earlier ones never
run. -/
theorem burst_executes_last_only {σ : Type} [DecidableEq σ] (s : σ)
    (evs : List (Ev σ)) (h : evs ≠ [])
    (hs : ∀ e ∈ evs, e.scope = s)
    (hchain : List.Chain' withinWindow evs) :
    busRun evs = [(evs.getLast h).act] := by
  cases evs with
  | nil => exact absurd rfl h
  | cons e rest =>
      have hes : e.scope = s := hs e (List.mem_cons_self _ _)
      have hfirst : busProc ([] : List (σ × ℕ × ℕ)) (e :: rest) =
          busProc [(s, e.act, e.time + e.delay)] rest := by
        simp only [busProc]
        simp [hes]
      cases rest with
      | nil =>
          simp [busRun, hfirst, busProc, List.getLast]
      | cons e2 rest2 =>
          have hwin : withinWindow e e2 := (List.chain'_cons.mp hchain).1
          have hchain2 : List.Chain' withinWindow (e2 :: rest2) :=
            (List.chain'_cons.mp hchain).2
          have he2 : e2.scope = s := hs e2 (by simp)
          have hrest2 : ∀ x ∈ rest2, x.scope = s := fun x hx => hs x (by simp [hx])
          have hb := busProc_burst s rest2 e2 e.act (e.time + e.delay) he2
            hrest2 hwin.2 hchain2
          have hlast : (e :: e2 :: rest2).getLast h = lastEv e2 rest2 := by
            rw [lastEv_eq_getLast, List.getLast_cons]
          simp only [busRun]
          rw [hfirst, hb, hlast]
          simp

/-- Claim C2, witness: a burst of two notify calls on scope 0, the second
arriving at time 15 before the first timer fires at time 20, executes only
the action of the second call. -/
theorem burst_executes_last_only_witness :
    busRun [Ev.mk 0 (0 : ℕ) 10 20, Ev.mk 15 0 11 20] = [11] := by
  have h := burst_executes_last_only (σ := ℕ) 0
    [Ev.mk 0 0 10 20, Ev.mk 15 0 11 20] (by simp)
    (by
      intro e he
      rcases List.mem_cons.mp he with rfl | he2
      · rfl
      · rcases List.mem_cons.mp he2 with rfl | he3
        · rfl
        · cases he3)
    (List.chain'_cons.mpr ⟨⟨by norm_num, by norm_num⟩, List.chain'_singleton _⟩)
  rw [h]
  rfl

/-- Claim C3: scopes are independent.  For a pending action on scope G2
followed by a notify on a different scope G1, both actions eventually run
(each exactly once in the two-event trace), and when the G1 notify arrives
while the G2 timer is still pending, the G2 entry keeps its originally
scheduled fire time, neither delayed nor canceled. -/
theorem cross_scope_independence {σ : Type} [DecidableEq σ] (e2 e1 : Ev σ)
    (hne : e1.scope ≠ e2.scope) :
    busRun [e2, e1] = [e2.act, e1.act] ∧
    (e1.time < e2.time + e2.delay →
      (e2.scope, e2.act, e2.time + e2.delay) ∈
        (busProc ([] : List (σ × ℕ × ℕ)) [e2, e1]).2) := by
  have hne2 : e2.scope ≠ e1.scope := Ne.symm hne
  constructor
  · by_cases hc : e2.time + e2.delay ≤ e1.time
    · simp [busRun, busProc, hc, hne2]
    · simp [busRun, busProc, hc, hne2]
  · intro hlt
    have hc : ¬ (e2.time + e2.delay ≤ e1.time) := Nat.not_le.mpr hlt
    simp [busProc, hc, hne2]

/-- Claim C3, witness: scope 0 schedules action 5 at time 0 with delay 10;
scope 1 schedules action 7 at time 3; both actions run. -/
theorem cross_scope_independence_witness :
    busRun [Ev.mk 0 (0 : ℕ) 5 10, Ev.mk 3 1 7 10] = [5, 7] :=
  (cross_scope_independence (Ev.mk 0 0 5 10) (Ev.mk 3 1 7 10) (by decide)).1

/-- Claim C7: the group traversal attempts every chart; the successes are
exactly the charts whose redraw did not throw, in order, so a failure in one
chart never prevents a later chart from redrawing; the errors are exactly the
thrown ones, reported together after the traversal, none swallowed; the
attempted successes and failures account for the whole group. -/
theorem redraw_group_isolation {ε β : Type} (charts : List (Except ε β)) :
    (redrawGroupRun charts).1 = charts.filterMap Except.toOption ∧
    (redrawGroupRun charts).2 = charts.filterMap errOf ∧
    (redrawGroupRun charts).1.length + (redrawGroupRun charts).2.length =
      charts.length := by
  induction charts with
  | nil => exact ⟨rfl, rfl, rfl⟩
  | cons c rest ih =>
      rcases ih with ⟨ih1, ih2, ih3⟩
      cases c with
      | ok b =>
          have hr : redrawGroupRun (Except.ok b :: rest) =
              (b :: (redrawGroupRun rest).1, (redrawGroupRun rest).2) := rfl
          refine ⟨?_, ?_, ?_⟩
          · rw [hr]
            simp [Except.toOption, ih1]
          · rw [hr]
            simp [errOf, Except.toOption, ih2]
          · rw [hr]
            simp only [List.length_cons]
            omega
      | error e =>
          have hr : redrawGroupRun (Except.error e :: rest) =
              ((redrawGroupRun rest).1, e :: (redrawGroupRun rest).2) := rfl
          refine ⟨?_, ?_, ?_⟩
          · rw [hr]
            simp [Except.toOption, ih1]
          · rw [hr]
            simp [errOf, ih2]
          · rw [hr]
            simp only [List.length_cons]
            omega

/-- Claim C8: the get-or-set round-trip law holds for symbolSize,
excludedOpacity, emptyOpacity, cx, innerRadius and elasticRadius, but the
nonemptyOpacity getter of the scatter plot returns the emptyOpacity field
(src/unnamed/part_001 line 368), so setting nonemptyOpacity to 1/2 and
reading it back yields the emptyOpacity default 0, breaking the law. -/
theorem nonemptyOpacity_roundtrip_bug :
    getNonemptyOpacity (setNonemptyOpacity ScatterPlotConf.init (1/2)) = 0 ∧
    (1 : ℚ)/2 ≠ 0 ∧
    getSymbolSize (setSymbolSize ScatterPlotConf.init 9) = 9 ∧
    getExcludedOpacity (setExcludedOpacity ScatterPlotConf.init (3/4)) = 3/4 ∧
    getEmptyOpacity (setEmptyOpacity ScatterPlotConf.init (1/4)) = 1/4 ∧
    getCx (setCx (PieChartConf.init 200 100) 42) = 42 ∧
    getInnerRadius (setInnerRadius (PieChartConf.init 200 100) 10) = 10 ∧
    getElasticRadius (setElasticRadius BubbleConf.init true) = true := by
  refine ⟨rfl, by norm_num, rfl, rfl, rfl, ?_, rfl, rfl⟩
  norm_num [getCx, setCx, PieChartConf.init]

theorem brushIsEmpty_extend (invertX invertY : ℚ → ℚ)
    (round : Option (ℚ → ℚ))
    (hx : Monotone invertX) (hy : Monotone invertY)
    (hr : ∀ r, round = some r → Monotone r)
    (x0 y0 x1 y1 : ℚ)
    (h : brushIsEmpty (some ((x0, y0), (x1, y1))) = true) :
    brushIsEmpty (some (extendBrush round
      ((invertX x0, invertY y0), (invertX x1, invertY y1)))) = true := by
  cases round with
  | none =>
      simp only [brushIsEmpty, extendBrush, Bool.or_eq_true,
        decide_eq_true_eq, ge_iff_le] at h ⊢
      rcases h with h | h
      · exact Or.inl (hx h)
      · exact Or.inr (hy h)
  | some r =>
      have hrm : Monotone r := hr r rfl
      simp only [brushIsEmpty, extendBrush, Bool.or_eq_true,
        decide_eq_true_eq, ge_iff_le] at h ⊢
      rcases h with h | h
      · exact Or.inl (hrm (hx h))
      · exact Or.inr (hrm (hy h))

/-- Claim C9: every non-null value passed to ScatterPlot.filter reaches the
base storage wrapped as a ranged-2D filter (null stays null), so the stored
filter is always absent or ranged-2D; and in the brushing handler, with
monotone scale inverses and a monotone rounding function (or none), the
filter handed to replaceFilter is null exactly when the brush selection is
empty, where a selection is empty iff it is absent or x0 >= x1 or
y0 >= y1. -/
theorem scatter_filter_brush_invariant
    (invertX invertY : ℚ → ℚ) (round : Option (ℚ → ℚ))
    (hx : Monotone invertX) (hy : Monotone invertY)
    (hr : ∀ r, round = some r → Monotone r)
    (sel : Option Sel) :
    scatterFilterArg none = none ∧
    (∀ c : Sel, scatterFilterArg (some c) =
      some (DCFilterVal.ranged2D ⟨c.1.1, c.1.2, c.2.1, c.2.2⟩)) ∧
    (scatterBrushingFilter invertX invertY round sel = none ↔
      brushIsEmpty sel = true) := by
  refine ⟨rfl, fun c => rfl, ?_⟩
  cases sel with
  | none => simp [scatterBrushingFilter, brushIsEmpty]
  | some c =>
      obtain ⟨⟨x0, y0⟩, x1, y1⟩ := c
      by_cases hempty : brushIsEmpty (some ((x0, y0), (x1, y1))) = true
      · have hext := brushIsEmpty_extend invertX invertY round hx hy hr
          x0 y0 x1 y1 hempty
        simp [scatterBrushingFilter, hempty, hext]
      · rw [Bool.not_eq_true] at hempty
        simp [scatterBrushingFilter, mkRangedTwoDimensionalFilter, hempty]

/-- Claim C9, witness: with identity scale inverses, no rounding and the
non-empty pixel selection [[0,0],[1,1]], the brushing filter is null iff the
selection is empty (and it is not). -/
theorem scatter_filter_brush_invariant_witness :
    (scatterBrushingFilter id id none (some (((0 : ℚ), (0 : ℚ)),
        ((1 : ℚ), (1 : ℚ)))) = none ↔
      brushIsEmpty (some (((0 : ℚ), (0 : ℚ)), ((1 : ℚ), (1 : ℚ)))) = true) :=
  (scatter_filter_brush_invariant id id none monotone_id monotone_id
    (fun _ h => Option.noConfusion h)
    (some ((0, 0), (1, 1)))).2.2

/-- Claim C10: bubbleR returns 0 whenever the radius value is not positive or
the radius scale yields NaN (none), and otherwise returns the scaled value;
the result is always an actual number, never NaN. -/
theorem bubbleR_never_nan {δ : Type} (rva : δ → ℚ) (rScale : ℚ → Option ℚ)
    (d : δ) :
    (bubbleR rva rScale d).isSome = true ∧
    (rva d ≤ 0 ∨ rScale (rva d) = none → bubbleR rva rScale d = some 0) ∧
    (0 < rva d → rScale (rva d) ≠ none →
      bubbleR rva rScale d = rScale (rva d)) := by
  refine ⟨?_, ?_, ?_⟩
  · cases hsc : rScale (rva d) with
    | none => simp [bubbleR, hsc]
    | some r =>
        by_cases h2 : rva d ≤ 0 <;> simp [bubbleR, hsc, h2]
  · rintro (h | h)
    · simp [bubbleR, h]
    · simp [bubbleR, h]
  · intro hpos hne
    have h2 : ¬ (rva d ≤ 0) := not_le.mpr hpos
    cases hsc : rScale (rva d) with
    | none => exact absurd hsc hne
    | some r => simp [bubbleR, hsc, h2]

/-- Claim C10, witness: with a constant radius value -1 the computed bubble
radius is 0. -/
theorem bubbleR_never_nan_witness :
    bubbleR (fun _ : ℕ => (-1 : ℚ)) (fun v => some (v * 2)) 0 = some 0 :=
  (bubbleR_never_nan (fun _ : ℕ => (-1 : ℚ)) (fun v => some (v * 2)) 0).2.1
    (Or.inl (by norm_num))
